import Mathlib

/-!
Verification development for the ajen-design portfolio site.

The TypeScript sources (src/types.ts, the application shell, and the
components AdminControl, ProjectDetail, Header) are shallowly embedded
below: each React state update becomes a pure function on an explicit
state value, JavaScript arrays become lists, `null`/`undefined` become
`Option`, and JavaScript numbers appearing as array indices or pixel
coordinates become `Nat`/`Int`.
-/

/-! ## Data model (src/types.ts) -/

/-- Model of `ProjectImage = string | { url: string; alt?: string }`.  At runtime the
object form may additionally carry a `type` field (read by `toSlide` in
ProjectDetail), so it is modelled here as an optional string. -/
inductive ProjectImage where
  | str (url : String)
  | obj (url : String) (alt : Option String) (ptype : Option String)
deriving DecidableEq, Repr

structure Project where
  id : String
  title : String
  category : String
  thumbnail : String
  description : String
  images : List ProjectImage
  year : String
  client : Option String
deriving DecidableEq, Repr

structure Exhibition where
  id : String
  title : String
  date : String
  location : String
  link : Option String
deriving DecidableEq, Repr

structure SiteContent where
  logoUrl : Option String
  heroLogoUrl : Option String
  projects : List Project
  exhibitions : List Exhibition
  contactEmail : String
deriving DecidableEq, Repr

/-! ## Gallery / slideshow (src/components/ProjectDetail.tsx) -/

/-- Substring containment, used to model the regular-expression test. -/
def strContains (s pat : String) : Bool :=
  (s.splitOn pat).length != 1

/-- Predicate `isYouTubeUrl`: the case-insensitive regex
`/youtube\.com\/watch\?v=|youtu\.be\//i` is an alternation of two literal
strings, modelled as case-insensitive substring containment. -/
def isYouTubeUrl (url : String) : Bool :=
  strContains url.toLower "youtube.com/watch?v=" || strContains url.toLower "youtu.be/"

structure Slide where
  url : String
  alt : Option String
  ptype : String
deriving DecidableEq, Repr

/-- Function `toSlide` from ProjectDetail.  For the object form, `img.type ?
img.type : inferred` is a JavaScript truthiness test: both a missing `type`
field and an empty string fall through to the inferred classification. -/
def toSlide (img : ProjectImage) : Slide :=
  match img with
  | .str url =>
      { url := url, alt := none,
        ptype := if isYouTubeUrl url then "youtube" else "image" }
  | .obj url alt ty =>
      let inferred := if isYouTubeUrl url then "youtube" else "image"
      { url := url, alt := alt,
        ptype := match ty with
          | some t => if t = "" then inferred else t
          | none => inferred }

/-- Definition `const slides = (project.images.length > 0 ? project.images :
[project.thumbnail]).map(toSlide)`. -/
def slides (p : Project) : List Slide :=
  (if p.images.length > 0 then p.images else [ProjectImage.str p.thumbnail]).map toSlide

/-- Function `nextSlide`: `(prev + 1) % slides.length` on the current index. -/
def nextSlide (n prev : Nat) : Nat :=
  (prev + 1) % n

/-- Function `prevSlide`: `(prev - 1 + slides.length) % slides.length`.  The source
expression `prev - 1 + n` is rearranged as `prev + n - 1` so that ℕ
subtraction cannot truncate; over the integers the two are equal for every
`prev ≥ 0`. -/
def prevSlide (n prev : Nat) : Nat :=
  (prev + n - 1) % n

/-- The two events that mutate the `currentSlide` state of the gallery. -/
inductive GalleryOp where
  | next
  | prev
deriving DecidableEq, Repr

def galleryStep (n : Nat) (op : GalleryOp) (i : Nat) : Nat :=
  match op with
  | .next => nextSlide n i
  | .prev => prevSlide n i

/-- Value of `currentSlide` after a sequence of next/prev events, starting
from the `useState(0)` initial value (or any given index). -/
def runGallery (n : Nat) (ops : List GalleryOp) (i : Nat) : Nat :=
  ops.foldl (fun j op => galleryStep n op j) i

/-- State of the open detail overlay as the program composes it.  App
renders `ProjectDetail project={selectedProject}` without a React key:
when the header's prev/next project navigation (`handleNavigate`) switches
the selected project while the overlay stays open, React reuses the same
component instance, so the `currentSlide` state persists across the switch
and nothing in ProjectDetail resets it.  The overlay state is therefore the
pair of the displayed project and the persistent slide index. -/
structure OverlayState where
  project : Project
  currentSlide : Nat
deriving DecidableEq, Repr

/-- Events that reach the open overlay: the next/prev slide buttons of the
gallery (modular in the slide count of the current project), and a project
switch from the header navigation, which replaces the `project` prop but —
absent a key or a resetting effect — leaves `currentSlide` untouched. -/
inductive OverlayOp where
  | slideNext
  | slidePrev
  | switchProject (p : Project)
deriving DecidableEq, Repr

def overlayStep (op : OverlayOp) (s : OverlayState) : OverlayState :=
  match op with
  | .slideNext =>
      { s with currentSlide := nextSlide (slides s.project).length s.currentSlide }
  | .slidePrev =>
      { s with currentSlide := prevSlide (slides s.project).length s.currentSlide }
  | .switchProject p => { s with project := p }

def runOverlay (ops : List OverlayOp) (s : OverlayState) : OverlayState :=
  ops.foldl (fun st op => overlayStep op st) s

/-! ## Presentation shell (App): filtering and project navigation -/

/-- Derived view `filteredProjects`, from the App component:
`activeCategory === "all" ? content.projects :
content.projects.filter(p => p.category === activeCategory)`. -/
def filteredProjects (activeCategory : String) (content : SiteContent) : List Project :=
  if activeCategory == "all" then content.projects
  else content.projects.filter (fun p => p.category == activeCategory)

/-- JavaScript `Array.prototype.findIndex`: index of the first element
satisfying the predicate, or `-1`. -/
def jsFindIndex (p : α → Bool) : List α → Int
  | [] => -1
  | a :: as =>
      if p a then 0
      else
        let r := jsFindIndex p as
        if r == -1 then -1 else r + 1

/-- The predicate `p => p.id === selectedProjectId`; comparison with a
`null` selection is always false. -/
def matchesSelected (sel : Option String) (p : Project) : Bool :=
  match sel with
  | none => false
  | some sid => p.id == sid

/-- The modal-relevant state of the App component. -/
structure AppState where
  content : SiteContent
  activeCategory : String
  selectedProjectId : Option String
deriving DecidableEq, Repr

/-- Derived value `selectedProjectIndex = filteredProjects.findIndex(p =>
p.id === selectedProjectId)`. -/
def selectedProjectIndex (s : AppState) : Int :=
  jsFindIndex (matchesSelected s.selectedProjectId)
    (filteredProjects s.activeCategory s.content)

inductive NavDirection where
  | prev
  | next
deriving DecidableEq, Repr

/-- Handler `handleNavigate`.  Accessing `filteredProjects[newIndex].id` on an
out-of-range index would throw a TypeError in JavaScript; that branch is
modelled as `none`.  (It is unreachable from valid states, as proved
below.) -/
def handleNavigate (dir : NavDirection) (s : AppState) : Option AppState :=
  let fp := filteredProjects s.activeCategory s.content
  let idx := selectedProjectIndex s
  if idx = -1 then some s
  else
    let n1 : Int := match dir with
      | .next => idx + 1
      | .prev => idx - 1
    let n2 : Int := if n1 ≥ (fp.length : Int) then 0 else n1
    let n3 : Int := if n2 < 0 then (fp.length : Int) - 1 else n2
    match fp[n3.toNat]? with
    | some p => some { s with selectedProjectId := some p.id }
    | none => none

/-! ## Touch / swipe recognition (src/components/ProjectDetail.tsx) -/

structure TouchPoint where
  clientX : Int
  clientY : Int
deriving DecidableEq, Repr

/-- The three `useRef` cells used by the swipe recogniser. -/
structure TouchState where
  touchStartX : Option Int
  touchStartY : Option Int
  isSwiping : Bool
deriving DecidableEq, Repr

def initTouchState : TouchState :=
  { touchStartX := none, touchStartY := none, isSwiping := false }

/-- Dead-zone threshold: the `10` in `handleTouchMove`. -/
def swipeDeadZone : Int := 10

/-- Commit threshold: the `40` in `handleTouchEnd`. -/
def swipeCommitThreshold : Int := 40

def handleTouchStart (t : TouchPoint) (_s : TouchState) : TouchState :=
  { touchStartX := some t.clientX, touchStartY := some t.clientY, isSwiping := false }

def handleTouchMove (t : TouchPoint) (s : TouchState) : TouchState :=
  match s.touchStartX, s.touchStartY with
  | some sx, some sy =>
      let deltaX := t.clientX - sx
      let deltaY := t.clientY - sy
      if !s.isSwiping ∧ |deltaX| > |deltaY| ∧ |deltaX| > swipeDeadZone then
        { s with isSwiping := true }
      else s
  | _, _ => s

inductive NavAction where
  | next
  | prev
deriving DecidableEq, Repr

/-- Handler `handleTouchEnd`: returns the new ref state together with the list of
slide navigations triggered (the calls to `nextSlide`/`prevSlide`).  Note the
early return when not in swipe mode leaves the refs untouched. -/
def handleTouchEnd (t : TouchPoint) (s : TouchState) : TouchState × List NavAction :=
  match s.touchStartX, s.touchStartY with
  | some sx, some sy =>
      if !s.isSwiping then (s, [])
      else
        let deltaX := t.clientX - sx
        let deltaY := t.clientY - sy
        let navs : List NavAction :=
          if |deltaX| > |deltaY| ∧ |deltaX| > swipeCommitThreshold then
            if deltaX < 0 then [NavAction.next] else [NavAction.prev]
          else []
        ({ touchStartX := none, touchStartY := none, isSwiping := false }, navs)
  | _, _ => (s, [])

/-- A complete touch gesture: touchstart at `start`, a touchmove for each
point of `moves`, and touchend releasing at `release`. -/
def runTouchSequence (start : TouchPoint) (moves : List TouchPoint)
    (release : TouchPoint) : TouchState × List NavAction :=
  let s0 := handleTouchStart start initTouchState
  let s1 := moves.foldl (fun s m => handleTouchMove m s) s0
  handleTouchEnd release s1

/-! ## Admin / draft editor (src/components/AdminControl.tsx) -/

/-- The `field`/`value` pair passed to `updateProject(id, field, value)`:
one constructor per `keyof Project` that the editor writes, carrying the
value of the type of that field. -/
inductive ProjectField where
  | title (v : String)
  | category (v : String)
  | thumbnail (v : String)
  | description (v : String)
  | year (v : String)
  | client (v : String)
  | images (v : List ProjectImage)
deriving DecidableEq, Repr

/-- The spread `{ ...p, [field]: value }`. -/
def setProjectField (p : Project) : ProjectField → Project
  | .title v => { p with title := v }
  | .category v => { p with category := v }
  | .thumbnail v => { p with thumbnail := v }
  | .description v => { p with description := v }
  | .year v => { p with year := v }
  | .client v => { p with client := some v }
  | .images v => { p with images := v }

/-- Helper `updateProject`: map over the projects of the draft, replacing the
field on every project whose id matches. -/
def updateProject (id : String) (f : ProjectField) (c : SiteContent) : SiteContent :=
  { c with projects := c.projects.map (fun p => if p.id == id then setProjectField p f else p) }

/-- The fresh project built by `addProject`; `now` stands for
`Date.now().toString()` and `year` for `new Date().getFullYear().toString()`. -/
def newProject (now year : String) : Project :=
  { id := now
    title := "New Project"
    category := "print"
    thumbnail := "https://picsum.photos/800/800"
    description := "Project description goes here."
    images := []
    year := year
    client := none }

def addProject (now year : String) (c : SiteContent) : SiteContent :=
  { c with projects := newProject now year :: c.projects }

/-- Handler `deleteProject`: guarded by the interactive `confirm` dialog. -/
def deleteProject (id : String) (confirmed : Bool) (c : SiteContent) : SiteContent :=
  if confirmed then { c with projects := c.projects.filter (fun p => p.id != id) }
  else c

inductive MoveDirection where
  | up
  | down
deriving DecidableEq, Repr, BEq

/-- The destructuring swap `[a[i], a[j]] = [a[j], a[i]]` on a copy of the
list; out-of-range indices (unreachable from the rendered buttons) leave the
list unchanged. -/
def listSwap (l : List α) (i j : Nat) : List α :=
  match l[i]?, l[j]? with
  | some ai, some aj => (l.set i aj).set j ai
  | _, _ => l

/-- Handler `moveProject`.  The boundary guard compares `index ===
draftContent.projects.length - 1` over JavaScript numbers, hence the `Int`
cast (for an empty list the right-hand side is `-1`, not `0`). -/
def moveProject (index : Nat) (dir : MoveDirection) (c : SiteContent) : SiteContent :=
  if (dir == MoveDirection.up && index == 0) ||
     (dir == MoveDirection.down && (index : Int) == (c.projects.length : Int) - 1) then c
  else
    let targetIndex := match dir with
      | .up => index - 1
      | .down => index + 1
    { c with projects := listSwap c.projects index targetIndex }

/-- The `field`/`value` pair passed to `updateExhibition(id, field, value)`. -/
inductive ExhibitionField where
  | title (v : String)
  | date (v : String)
  | location (v : String)
  | link (v : String)
deriving DecidableEq, Repr

def setExhibitionField (e : Exhibition) : ExhibitionField → Exhibition
  | .title v => { e with title := v }
  | .date v => { e with date := v }
  | .location v => { e with location := v }
  | .link v => { e with link := some v }

def updateExhibition (id : String) (f : ExhibitionField) (c : SiteContent) : SiteContent :=
  { c with exhibitions := c.exhibitions.map (fun e => if e.id == id then setExhibitionField e f else e) }

/-- The fresh exhibition built by `addExhibition`; `now` stands for
`Date.now().toString()` and `today` for the date part of
`new Date().toISOString()`. -/
def newExhibition (now today : String) : Exhibition :=
  { id := now
    title := "New Exhibition"
    date := today
    location := "Location"
    link := none }

def addExhibition (now today : String) (c : SiteContent) : SiteContent :=
  { c with exhibitions := newExhibition now today :: c.exhibitions }

def deleteExhibition (id : String) (confirmed : Bool) (c : SiteContent) : SiteContent :=
  if confirmed then { c with exhibitions := c.exhibitions.filter (fun e => e.id != id) }
  else c

/-- The Add Image button: `newImages = [...project.images, img]` with `img`
an object with empty url and alt, followed by an images-field
`updateProject`, for the draft project with the given id. -/
def galleryAddImage (pid : String) (c : SiteContent) : SiteContent :=
  { c with projects := c.projects.map (fun p =>
      if p.id == pid then { p with images := p.images ++ [ProjectImage.obj "" (some "") none] }
      else p) }

/-- URL edit on gallery image `idx`: the element is replaced by
`{ url: v, alt: currentAlt }` where `currentAlt` is the empty string for the
bare-string form and the existing (possibly absent) `alt` otherwise. -/
def setImageUrl (imgs : List ProjectImage) (idx : Nat) (v : String) : List ProjectImage :=
  match imgs[idx]? with
  | none => imgs
  | some img =>
      let currentAlt : Option String := match img with
        | .str _ => some ""
        | .obj _ a _ => a
      imgs.set idx (.obj v currentAlt none)

def galleryUpdateImageUrl (pid : String) (idx : Nat) (v : String) (c : SiteContent) : SiteContent :=
  { c with projects := c.projects.map (fun p =>
      if p.id == pid then { p with images := setImageUrl p.images idx v } else p) }

/-- Alt-text edit on gallery image `idx`: the element is replaced by
`{ url: currentUrl, alt: v }`. -/
def setImageAlt (imgs : List ProjectImage) (idx : Nat) (v : String) : List ProjectImage :=
  match imgs[idx]? with
  | none => imgs
  | some img =>
      let currentUrl : String := match img with
        | .str u => u
        | .obj u _ _ => u
      imgs.set idx (.obj currentUrl (some v) none)

def galleryUpdateImageAlt (pid : String) (idx : Nat) (v : String) (c : SiteContent) : SiteContent :=
  { c with projects := c.projects.map (fun p =>
      if p.id == pid then { p with images := setImageAlt p.images idx v } else p) }

/-- Remove button: `project.images.filter((_, i) => i !== idx)`. -/
def removeImageAt (imgs : List ProjectImage) (idx : Nat) : List ProjectImage :=
  (imgs.enum.filter (fun x => x.1 != idx)).map (fun x => x.2)

def galleryRemoveImage (pid : String) (idx : Nat) (c : SiteContent) : SiteContent :=
  { c with projects := c.projects.map (fun p =>
      if p.id == pid then { p with images := removeImageAt p.images idx } else p) }

/-- The settings inputs: `setDraftContent({...draftContent, logoUrl: v})`
and friends. -/
def setLogoUrl (v : String) (c : SiteContent) : SiteContent :=
  { c with logoUrl := some v }

def setHeroLogoUrl (v : String) (c : SiteContent) : SiteContent :=
  { c with heroLogoUrl := some v }

def setContactEmail (v : String) (c : SiteContent) : SiteContent :=
  { c with contactEmail := v }

/-- Handler `handleImport`, after the file read completes.  `result` is
`e.target.result` (`none` for a null result); the `if (e.target?.result)`
truthiness guard also skips the empty string.  `parsed` is the outcome the
JSON.parse builtin of the browser produces on that text: `Except.ok` with
the decoded `SiteContent` for well-formed JSON, `Except.error` for a thrown
SyntaxError (in particular JSON.parse of the empty string throws).  Returns
the new draft together with whether the `alert` warning was shown; the
`try`/`catch` makes it total — no exception escapes. -/
def handleImport (result : Option String) (parsed : Except String SiteContent)
    (draft : SiteContent) : SiteContent × Bool :=
  match result with
  | none => (draft, false)
  | some text =>
      if text = "" then (draft, false)
      else
        match parsed with
        | .ok v => (v, false)
        | .error _ => (draft, true)

/-- Every draft-mutating operation the open editor exposes. -/
inductive AdminOp where
  | updateProjectField (id : String) (f : ProjectField)
  | addProjectOp (now year : String)
  | deleteProjectOp (id : String) (confirmed : Bool)
  | moveProjectOp (index : Nat) (dir : MoveDirection)
  | galleryAdd (pid : String)
  | galleryUpdateUrl (pid : String) (idx : Nat) (v : String)
  | galleryUpdateAlt (pid : String) (idx : Nat) (v : String)
  | galleryRemove (pid : String) (idx : Nat)
  | updateExhibitionField (id : String) (f : ExhibitionField)
  | addExhibitionOp (now today : String)
  | deleteExhibitionOp (id : String) (confirmed : Bool)
  | logoUrlEdit (v : String)
  | heroLogoUrlEdit (v : String)
  | contactEmailEdit (v : String)
  | importOp (result : Option String) (parsed : Except String SiteContent)

def applyDraftOp (op : AdminOp) (draft : SiteContent) : SiteContent :=
  match op with
  | .updateProjectField id f => updateProject id f draft
  | .addProjectOp now year => addProject now year draft
  | .deleteProjectOp id confirmed => deleteProject id confirmed draft
  | .moveProjectOp index dir => moveProject index dir draft
  | .galleryAdd pid => galleryAddImage pid draft
  | .galleryUpdateUrl pid idx v => galleryUpdateImageUrl pid idx v draft
  | .galleryUpdateAlt pid idx v => galleryUpdateImageAlt pid idx v draft
  | .galleryRemove pid idx => galleryRemoveImage pid idx draft
  | .updateExhibitionField id f => updateExhibition id f draft
  | .addExhibitionOp now today => addExhibition now today draft
  | .deleteExhibitionOp id confirmed => deleteExhibition id confirmed draft
  | .logoUrlEdit v => setLogoUrl v draft
  | .heroLogoUrlEdit v => setHeroLogoUrl v draft
  | .contactEmailEdit v => setContactEmail v draft
  | .importOp result parsed => (handleImport result parsed draft).1

/-- The state of the AdminControl component together with the published content
it is bound to: `published` is the parent `content` prop (and what the rest
of the application renders from), `draft` is the `draftContent` buffer. -/
structure AdminState where
  published : SiteContent
  draft : SiteContent
  isOpen : Bool
deriving DecidableEq, Repr

/-- Handler `handleOpen`: `setDraftContent(JSON.parse(JSON.stringify(content)))`
— a deep copy, i.e. the same value — then `setIsOpen(true)`. -/
def handleOpen (s : AdminState) : AdminState :=
  { s with draft := s.published, isOpen := true }

/-- Handler `handleClose`: `onUpdate(draftContent)` publishes the whole draft
value, then `setIsOpen(false)`. -/
def handleClose (s : AdminState) : AdminState :=
  { s with published := s.draft, isOpen := false }

/-- A single editor mutation: every operation goes through
`setDraftContent`, so only the draft component changes. -/
def adminStep (op : AdminOp) (s : AdminState) : AdminState :=
  { s with draft := applyDraftOp op s.draft }

def runAdmin (ops : List AdminOp) (s : AdminState) : AdminState :=
  ops.foldl (fun st op => adminStep op st) s

/-! ## Sample data used by the concrete witnesses -/

def sampleProject1 : Project :=
  { id := "p1", title := "One", category := "print", thumbnail := "t1",
    description := "d1", images := [], year := "2023", client := none }

def sampleProject2 : Project :=
  { id := "p2", title := "Two", category := "digital", thumbnail := "t2",
    description := "d2", images := [ProjectImage.str "u1", ProjectImage.obj "u2" (some "a2") none],
    year := "2024", client := some "acme" }

def sampleProject3 : Project :=
  { id := "p3", title := "Three", category := "print", thumbnail := "t3",
    description := "d3", images := [], year := "2025", client := none }

/-- A project with a three-image gallery, for the stale-index trace. -/
def galleryProject : Project :=
  { id := "g1", title := "Gallery", category := "print", thumbnail := "gt",
    description := "gd", images := [ProjectImage.str "i1", ProjectImage.str "i2",
      ProjectImage.str "i3"], year := "2024", client := none }

/-- The failing event sequence: advance the slideshow twice, then switch to
a project whose image list is empty (one thumbnail slide). -/
def staleOverlayOps : List OverlayOp :=
  [OverlayOp.slideNext, OverlayOp.slideNext, OverlayOp.switchProject sampleProject1]

def staleOverlayFinal : OverlayState :=
  runOverlay staleOverlayOps { project := galleryProject, currentSlide := 0 }

def sampleContent : SiteContent :=
  { logoUrl := none, heroLogoUrl := none,
    projects := [sampleProject1, sampleProject2, sampleProject3],
    exhibitions := [{ id := "e1", title := "Ex", date := "2024-01-01",
                      location := "Loc", link := none }],
    contactEmail := "hi@example.com" }

def sampleState : AppState :=
  { content := sampleContent, activeCategory := "print", selectedProjectId := some "p1" }

/-- A draft that already contains a project and an exhibition whose ids
equal the timestamp string about to be handed to the add handlers. -/
def clashContent : SiteContent :=
  { logoUrl := none, heroLogoUrl := none,
    projects := [{ id := "100", title := "t", category := "c", thumbnail := "th",
                   description := "d", images := [], year := "2020", client := none }],
    exhibitions := [{ id := "100", title := "e", date := "2020-01-01",
                      location := "l", link := none }],
    contactEmail := "" }

/-! ## Helper lemmas -/

theorem runAdmin_published (ops : List AdminOp) (s : AdminState) :
    (runAdmin ops s).published = s.published := by
  induction ops generalizing s with
  | nil => rfl
  | cons op rest ih =>
      show (runAdmin rest (adminStep op s)).published = s.published
      rw [ih]
      rfl

theorem runAdmin_isOpen (ops : List AdminOp) (s : AdminState) :
    (runAdmin ops s).isOpen = s.isOpen := by
  induction ops generalizing s with
  | nil => rfl
  | cons op rest ih =>
      show (runAdmin rest (adminStep op s)).isOpen = s.isOpen
      rw [ih]
      rfl

theorem nextSlide_iterate (N : Nat) (hN : 1 ≤ N) (k i : Nat) (hi : i < N) :
    (nextSlide N)^[k] i = (i + k) % N := by
  induction k generalizing i with
  | zero => simp [Nat.mod_eq_of_lt hi]
  | succ k ih =>
      rw [Function.iterate_succ_apply]
      have h1 : nextSlide N i = (i + 1) % N := rfl
      rw [h1, ih ((i + 1) % N) (Nat.mod_lt _ hN), Nat.mod_add_mod]
      have : i + 1 + k = i + (k + 1) := by omega
      rw [this]

theorem prevSlide_iterate (N : Nat) (hN : 1 ≤ N) (k i : Nat) (hi : i < N) :
    (prevSlide N)^[k] i = (i + k * (N - 1)) % N := by
  induction k generalizing i with
  | zero => simp [Nat.mod_eq_of_lt hi]
  | succ k ih =>
      rw [Function.iterate_succ_apply]
      have h1 : prevSlide N i = (i + N - 1) % N := rfl
      rw [h1, ih ((i + N - 1) % N) (Nat.mod_lt _ hN), Nat.mod_add_mod]
      have : i + N - 1 + k * (N - 1) = i + (k + 1) * (N - 1) := by
        have : 1 ≤ N := hN
        cases N with
        | zero => omega
        | succ m => ring_nf; omega
      rw [this]

/-! ## Claim theorems -/

/-- C3: for every slide count `N ≥ 1` and index `i < N`, `nextSlide` yields
`(i+1) mod N` and `prevSlide` yields `(i-1+N) mod N` (written `i+N-1` over
ℕ, equal for every `i ≥ 0`); index `N-1` steps to `0` under next and index
`0` steps to `N-1` under prev; and `N` applications of either operation
return to the starting index. -/
theorem slide_navigation_wraparound_cycle (N i : Nat) (hN : 1 ≤ N) (hi : i < N) :
    nextSlide N i = (i + 1) % N ∧
    prevSlide N i = (i + N - 1) % N ∧
    nextSlide N (N - 1) = 0 ∧
    prevSlide N 0 = N - 1 ∧
    (nextSlide N)^[N] i = i ∧
    (prevSlide N)^[N] i = i := by
  refine ⟨rfl, rfl, ?_, ?_, ?_, ?_⟩
  · show (N - 1 + 1) % N = 0
    have : N - 1 + 1 = N := by omega
    rw [this, Nat.mod_self]
  · show (0 + N - 1) % N = N - 1
    have h : 0 + N - 1 = N - 1 := by omega
    rw [h, Nat.mod_eq_of_lt (by omega)]
  · rw [nextSlide_iterate N hN N i hi, Nat.add_mod_right, Nat.mod_eq_of_lt hi]
  · rw [prevSlide_iterate N hN N i hi]
    have h : i + N * (N - 1) = i + (N - 1) * N := by ring
    rw [h, Nat.add_mul_mod_self_right, Nat.mod_eq_of_lt hi]

/-- Witness for C3 at `N = 3`, `i = 1`. -/
theorem slide_navigation_wraparound_cycle_witness :
    nextSlide 3 1 = (1 + 1) % 3 ∧
    prevSlide 3 1 = (1 + 3 - 1) % 3 ∧
    nextSlide 3 (3 - 1) = 0 ∧
    prevSlide 3 0 = 3 - 1 ∧
    (nextSlide 3)^[3] 1 = 1 ∧
    (prevSlide 3)^[3] 1 = 1 :=
  slide_navigation_wraparound_cycle 3 1 (by decide) (by decide)

/-- C5: for a selected category other than "all" the filtered list is
exactly the filter of the project list on that category — an order-preserving
subsequence all of whose members carry the category — and selecting "all"
yields the full project collection. -/
theorem category_filtering_exact (content : SiteContent) (cat : String) :
    (cat ≠ "all" →
      filteredProjects cat content
        = content.projects.filter (fun p => p.category == cat) ∧
      (filteredProjects cat content).Sublist content.projects ∧
      ∀ p ∈ filteredProjects cat content, p.category = cat) ∧
    filteredProjects "all" content = content.projects := by
  constructor
  · intro hcat
    have hne : (cat == "all") = false := beq_eq_false_iff_ne.mpr hcat
    have heq : filteredProjects cat content
        = content.projects.filter (fun p => p.category == cat) := by
      simp [filteredProjects, hne]
    refine ⟨heq, ?_, ?_⟩
    · rw [heq]; exact List.filter_sublist _
    · intro p hp
      rw [heq] at hp
      have := List.of_mem_filter hp
      exact beq_iff_eq.mp this
  · simp [filteredProjects]

/-- Witness for C5 at the sample content and category "print". -/
theorem category_filtering_exact_witness :
    ("print" ≠ "all" →
      filteredProjects "print" sampleContent
        = sampleContent.projects.filter (fun p => p.category == "print") ∧
      (filteredProjects "print" sampleContent).Sublist sampleContent.projects ∧
      ∀ p ∈ filteredProjects "print" sampleContent, p.category = "print") ∧
    filteredProjects "all" sampleContent = sampleContent.projects :=
  category_filtering_exact sampleContent "print"

/-- C1: opening the editor copies the published content into the draft;
every sequence of editor mutations (project add/delete/field-update/reorder,
gallery-image add/update/remove, exhibition add/delete/field-update,
settings edits, import) leaves the published content untouched and the
editor open, and the close handler publishes the whole final draft as a
single value replacement — the intermediate drafts are never published, so
the statement holds in particular for every prefix of `ops`. -/
theorem draft_isolation_atomic_commit (s : AdminState) (ops : List AdminOp) :
    (runAdmin ops (handleOpen s)).published = s.published ∧
    (runAdmin ops (handleOpen s)).isOpen = true ∧
    (handleClose (runAdmin ops (handleOpen s))).published
      = (runAdmin ops (handleOpen s)).draft ∧
    (handleClose (runAdmin ops (handleOpen s))).isOpen = false := by
  refine ⟨?_, ?_, rfl, rfl⟩
  · rw [runAdmin_published]; rfl
  · rw [runAdmin_isOpen]; rfl

/-- C2 counterexample: importing an empty file.  The empty string is not
well-formed JSON (JSON.parse throws on it, here the explicit error outcome),
yet the truthiness guard `if (e.target?.result)` skips the whole handler:
the draft is preserved, but no warning is surfaced, contradicting the
claim that every non-JSON file produces a warning. -/
theorem import_empty_file_silent :
    handleImport (some "") (Except.error "Unexpected end of JSON input") sampleContent
      = (sampleContent, false) := rfl

/-- C2 (amended): for a file read yielding non-empty text, a parse failure
leaves the draft exactly as it was and surfaces the alert warning, and a
parse success replaces the entire draft by the parsed value with no warning
(no partial merge); a read yielding the empty string or a null result is
ignored silently, draft preserved, no warning.  The handler is a total
function, so no exception propagates in any case. -/
theorem import_parse_outcome (draft v : SiteContent) (text e : String)
    (parsed : Except String SiteContent) :
    (text ≠ "" → handleImport (some text) (Except.error e) draft = (draft, true)) ∧
    (text ≠ "" → handleImport (some text) (Except.ok v) draft = (v, false)) ∧
    handleImport (some "") parsed draft = (draft, false) ∧
    handleImport none parsed draft = (draft, false) := by
  refine ⟨?_, ?_, rfl, rfl⟩
  · intro ht
    simp [handleImport, ht]
  · intro ht
    simp [handleImport, ht]

/-- Witness for C2 at a concrete non-empty text. -/
theorem import_parse_outcome_witness :
    handleImport (some "not json") (Except.error "SyntaxError") sampleContent
      = (sampleContent, true) ∧
    handleImport (some "not json") (Except.ok clashContent) sampleContent
      = (clashContent, false) :=
  ⟨(import_parse_outcome sampleContent clashContent "not json" "SyntaxError"
      (Except.error "SyntaxError")).1 (by decide),
   (import_parse_outcome sampleContent clashContent "not json" "SyntaxError"
      (Except.error "SyntaxError")).2.1 (by decide)⟩

/-- C7 counterexample: `Date.now().toString()` carries no uniqueness
guarantee against the ids already in the draft.  Adding a project (or an
exhibition) while the clock string equals an existing id — e.g. a second
add within the same millisecond — produces duplicate identifiers even
though the draft satisfied the invariant beforehand. -/
theorem add_project_duplicate_id :
    (clashContent.projects.map (fun p => p.id)).Nodup ∧
    ((clashContent.exhibitions.map (fun e => e.id)).Nodup) ∧
    ¬ (((addProject "100" "2024" clashContent).projects.map (fun p => p.id)).Nodup) ∧
    ¬ (((addExhibition "100" "2024-06-01" clashContent).exhibitions.map
        (fun e => e.id)).Nodup) := by
  refine ⟨?_, ?_, ?_, ?_⟩ <;> decide

/-- C7 (amended): adding a project (resp. exhibition) preserves pairwise
distinctness of the identifiers in its collection provided the time-derived
identifier differs from every identifier already present — which holds
whenever every existing entry was created at a strictly earlier timestamp. -/
theorem add_preserves_unique_ids (c : SiteContent) (now year today : String)
    (hp : (c.projects.map (fun p => p.id)).Nodup)
    (hpf : now ∉ c.projects.map (fun p => p.id))
    (he : (c.exhibitions.map (fun e => e.id)).Nodup)
    (hef : now ∉ c.exhibitions.map (fun e => e.id)) :
    ((addProject now year c).projects.map (fun p => p.id)).Nodup ∧
    ((addExhibition now today c).exhibitions.map (fun e => e.id)).Nodup := by
  constructor
  · show ((newProject now year :: c.projects).map (fun p => p.id)).Nodup
    rw [List.map_cons]
    exact List.nodup_cons.mpr ⟨hpf, hp⟩
  · show ((newExhibition now today :: c.exhibitions).map (fun e => e.id)).Nodup
    rw [List.map_cons]
    exact List.nodup_cons.mpr ⟨hef, he⟩

/-- Witness for C7 (amended) with a fresh timestamp string. -/
theorem add_preserves_unique_ids_witness :
    (((addProject "999" "2026" sampleContent).projects.map (fun p => p.id)).Nodup) ∧
    (((addExhibition "999" "2026-01-01" sampleContent).exhibitions.map
        (fun e => e.id)).Nodup) :=
  add_preserves_unique_ids sampleContent "999" "2026" "2026-01-01"
    (by decide) (by decide) (by decide) (by decide)

theorem runGallery_lt (n : Nat) (hn : 1 ≤ n) (ops : List GalleryOp) (i : Nat)
    (hi : i < n) : runGallery n ops i < n := by
  induction ops generalizing i with
  | nil => exact hi
  | cons op rest ih =>
      show runGallery n rest (galleryStep n op i) < n
      refine ih _ ?_
      cases op with
      | next => exact Nat.mod_lt _ hn
      | prev => exact Nat.mod_lt _ hn

/-- Within a single ProjectDetail mount the intended invariant does hold:
the slide list always has at least one entry — the images when present,
otherwise the thumbnail as the sole slide — and from the initial index `0`,
every sequence of next/prev slide events keeps the index inside `[0, N)`,
so indexing the slide list with it yields a slide.  The invariant is broken
only by the cross-project transition, see the theorem below. -/
theorem slide_index_always_valid (p : Project) (ops : List GalleryOp) :
    1 ≤ (slides p).length ∧
    (p.images = [] → (slides p).length = 1) ∧
    (p.images ≠ [] → (slides p).length = p.images.length) ∧
    runGallery (slides p).length ops 0 < (slides p).length ∧
    ((slides p)[runGallery (slides p).length ops 0]?).isSome = true := by
  have hlen : (slides p).length
      = if p.images.length > 0 then p.images.length else 1 := by
    unfold slides
    by_cases h : p.images.length > 0 <;> simp [h]
  have h1 : 1 ≤ (slides p).length := by
    rw [hlen]
    by_cases h : p.images.length > 0
    · rw [if_pos h]
      omega
    · rw [if_neg h]
  have hrun : runGallery (slides p).length ops 0 < (slides p).length :=
    runGallery_lt _ h1 ops 0 (by omega)
  refine ⟨h1, ?_, ?_, hrun, ?_⟩
  · intro h
    rw [hlen]
    simp [h]
  · intro h
    have : p.images.length > 0 := List.length_pos.mpr h
    rw [hlen]
    simp [this]
  · rw [List.getElem?_eq_getElem hrun]
    rfl

/-- C8: the failing input for the claimed slide-index invariant.  Open the
three-image project, advance the slideshow twice (`currentSlide = 2`), then
use the header navigation to switch to a project with an empty image list.
The ProjectDetail instance is reused (no React key), so the stale index 2
meets a one-slide list: the index lies outside `[0, N)` and indexing yields
no slide — the render expression `slides[currentSlide].type` dereferences
`undefined` and throws a TypeError.  The invariant the spec states (and the
unconditional indexing in the render relies on) is thus violated by the
program. -/
theorem stale_slide_index_after_project_switch :
    staleOverlayFinal.currentSlide = 2 ∧
    (slides staleOverlayFinal.project).length = 1 ∧
    ¬ (staleOverlayFinal.currentSlide < (slides staleOverlayFinal.project).length) ∧
    ((slides staleOverlayFinal.project)[staleOverlayFinal.currentSlide]?) = none := by
  decide

theorem moveDir_beq_up_up : (MoveDirection.up == MoveDirection.up) = true := rfl

theorem moveDir_beq_up_down : (MoveDirection.up == MoveDirection.down) = false := rfl

theorem moveDir_beq_down_up : (MoveDirection.down == MoveDirection.up) = false := rfl

theorem moveDir_beq_down_down : (MoveDirection.down == MoveDirection.down) = true := rfl

/-- C9: moving a project at a valid index swaps it with its adjacent
sibling — position `i` receives the old occupant of the target position and
vice versa, every other position keeps its occupant, the length is
preserved — and moving the first project up or the last project down leaves
the content completely unchanged. -/
theorem move_project_swap (c : SiteContent) (i : Nat) (hi : i < c.projects.length) :
    (i = 0 → moveProject i MoveDirection.up c = c) ∧
    (i + 1 = c.projects.length → moveProject i MoveDirection.down c = c) ∧
    (0 < i →
      (moveProject i MoveDirection.up c).projects.length = c.projects.length ∧
      ∀ k : Nat, (moveProject i MoveDirection.up c).projects[k]? =
        if k = i then c.projects[i - 1]?
        else if k = i - 1 then c.projects[i]?
        else c.projects[k]?) ∧
    (i + 1 < c.projects.length →
      (moveProject i MoveDirection.down c).projects.length = c.projects.length ∧
      ∀ k : Nat, (moveProject i MoveDirection.down c).projects[k]? =
        if k = i then c.projects[i + 1]?
        else if k = i + 1 then c.projects[i]?
        else c.projects[k]?) := by
  refine ⟨?_, ?_, ?_, ?_⟩
  · intro h
    subst h
    simp [moveProject, moveDir_beq_up_up, moveDir_beq_up_down]
  · intro h
    have hguard : ((i : Int) == (c.projects.length : Int) - 1) = true := by
      rw [beq_iff_eq]
      omega
    simp [moveProject, hguard, moveDir_beq_down_up, moveDir_beq_down_down]
  · intro hpos
    have hne0 : (i == 0) = false := by
      rw [beq_eq_false_iff_ne]
      omega
    have hstep : moveProject i MoveDirection.up c
        = { c with projects := listSwap c.projects i (i - 1) } := by
      simp [moveProject, hne0, moveDir_beq_up_up, moveDir_beq_up_down]
    have hj : i - 1 < c.projects.length := by omega
    have hIget : c.projects[i]? = some c.projects[i] := List.getElem?_eq_getElem hi
    have hJget : c.projects[i - 1]? = some c.projects[i - 1] := List.getElem?_eq_getElem hj
    have hswap : listSwap c.projects i (i - 1)
        = (c.projects.set i c.projects[i - 1]).set (i - 1) c.projects[i] := by
      simp [listSwap, hIget, hJget]
    rw [hstep, hswap]
    refine ⟨by simp, ?_⟩
    intro k
    by_cases hk1 : k = i - 1
    · subst hk1
      have hne : ¬ (i - 1 = i) := by omega
      rw [List.getElem?_set_self (by simpa using hj), if_neg hne, if_pos rfl, hIget]
    · rw [List.getElem?_set_ne (fun h => hk1 h.symm)]
      by_cases hk2 : k = i
      · subst hk2
        rw [List.getElem?_set_self hi, if_pos rfl, hJget]
      · rw [List.getElem?_set_ne (fun h => hk2 h.symm), if_neg hk2, if_neg hk1]
  · intro hlt
    have hne0 : ((i : Int) == (c.projects.length : Int) - 1) = false := by
      rw [beq_eq_false_iff_ne]
      omega
    have hstep : moveProject i MoveDirection.down c
        = { c with projects := listSwap c.projects i (i + 1) } := by
      simp [moveProject, hne0, moveDir_beq_down_up, moveDir_beq_down_down]
    have hIget : c.projects[i]? = some c.projects[i] := List.getElem?_eq_getElem hi
    have hJget : c.projects[i + 1]? = some c.projects[i + 1] := List.getElem?_eq_getElem hlt
    have hswap : listSwap c.projects i (i + 1)
        = (c.projects.set i c.projects[i + 1]).set (i + 1) c.projects[i] := by
      simp [listSwap, hIget, hJget]
    rw [hstep, hswap]
    refine ⟨by simp, ?_⟩
    intro k
    by_cases hk1 : k = i + 1
    · subst hk1
      have hne : ¬ (i + 1 = i) := by omega
      rw [List.getElem?_set_self (by simpa using hlt), if_neg hne, if_pos rfl, hIget]
    · rw [List.getElem?_set_ne (fun h => hk1 h.symm)]
      by_cases hk2 : k = i
      · subst hk2
        rw [List.getElem?_set_self hi, if_pos rfl, hJget]
      · rw [List.getElem?_set_ne (fun h => hk2 h.symm), if_neg hk2, if_neg hk1]

/-- Witness for C9 at the sample content and index 1. -/
theorem move_project_swap_witness :
    ((1 : Nat) = 0 → moveProject 1 MoveDirection.up sampleContent = sampleContent) ∧
    (1 + 1 = sampleContent.projects.length →
      moveProject 1 MoveDirection.down sampleContent = sampleContent) ∧
    ((0 : Nat) < 1 →
      (moveProject 1 MoveDirection.up sampleContent).projects.length
        = sampleContent.projects.length ∧
      ∀ k : Nat, (moveProject 1 MoveDirection.up sampleContent).projects[k]? =
        if k = 1 then sampleContent.projects[1 - 1]?
        else if k = 1 - 1 then sampleContent.projects[1]?
        else sampleContent.projects[k]?) ∧
    (1 + 1 < sampleContent.projects.length →
      (moveProject 1 MoveDirection.down sampleContent).projects.length
        = sampleContent.projects.length ∧
      ∀ k : Nat, (moveProject 1 MoveDirection.down sampleContent).projects[k]? =
        if k = 1 then sampleContent.projects[1 + 1]?
        else if k = 1 + 1 then sampleContent.projects[1]?
        else sampleContent.projects[k]?) :=
  move_project_swap sampleContent 1 (by decide)

/-! ## Lemmas about the swipe recogniser -/

theorem handleTouchMove_start (m : TouchPoint) (s : TouchState) :
    (handleTouchMove m s).touchStartX = s.touchStartX ∧
    (handleTouchMove m s).touchStartY = s.touchStartY := by
  obtain ⟨tx, ty, sw⟩ := s
  cases tx with
  | none => exact ⟨rfl, rfl⟩
  | some sx =>
      cases ty with
      | none => exact ⟨rfl, rfl⟩
      | some sy =>
          refine ⟨?_, ?_⟩ <;> (unfold handleTouchMove; dsimp only; split <;> rfl)

theorem foldMoves_start (moves : List TouchPoint) (s : TouchState) :
    ((moves.foldl (fun st m => handleTouchMove m st) s).touchStartX = s.touchStartX ∧
     (moves.foldl (fun st m => handleTouchMove m st) s).touchStartY = s.touchStartY) := by
  induction moves generalizing s with
  | nil => exact ⟨rfl, rfl⟩
  | cons m rest ih =>
      have h1 := handleTouchMove_start m s
      have h2 := ih (handleTouchMove m s)
      simp only [List.foldl_cons]
      exact ⟨h2.1.trans h1.1, h2.2.trans h1.2⟩

theorem handleTouchMove_swiping_mono (m : TouchPoint) (s : TouchState)
    (h : s.isSwiping = true) : (handleTouchMove m s).isSwiping = true := by
  obtain ⟨tx, ty, sw⟩ := s
  cases tx with
  | none => exact h
  | some sx =>
      cases ty with
      | none => exact h
      | some sy =>
          unfold handleTouchMove
          dsimp only at h ⊢
          subst h
          simp

theorem handleTouchMove_qualifying (m : TouchPoint) (s : TouchState) (sx sy : Int)
    (hx : s.touchStartX = some sx) (hy : s.touchStartY = some sy)
    (hq : |m.clientX - sx| > |m.clientY - sy| ∧ |m.clientX - sx| > swipeDeadZone) :
    (handleTouchMove m s).isSwiping = true := by
  obtain ⟨tx, ty, sw⟩ := s
  dsimp only at hx hy
  subst hx
  subst hy
  unfold handleTouchMove
  dsimp only
  by_cases hsw : sw
  · subst hsw
    simp
  · have hsw2 : sw = false := by simpa using hsw
    subst hsw2
    rw [if_pos ⟨rfl, hq.1, hq.2⟩]

theorem foldMoves_swiping (moves : List TouchPoint) (s : TouchState) (sx sy : Int)
    (hx : s.touchStartX = some sx) (hy : s.touchStartY = some sy)
    (h : s.isSwiping = true ∨ ∃ m ∈ moves,
        |m.clientX - sx| > |m.clientY - sy| ∧ |m.clientX - sx| > swipeDeadZone) :
    (moves.foldl (fun st m => handleTouchMove m st) s).isSwiping = true := by
  induction moves generalizing s with
  | nil =>
      rcases h with h | ⟨m, hm, _⟩
      · exact h
      · exact absurd hm (List.not_mem_nil m)
  | cons m rest ih =>
      simp only [List.foldl_cons]
      have hst := handleTouchMove_start m s
      rcases h with hsw | ⟨m2, hm2, hq2⟩
      · exact ih (handleTouchMove m s) (hst.1.trans hx) (hst.2.trans hy)
          (Or.inl (handleTouchMove_swiping_mono m s hsw))
      · rcases List.mem_cons.mp hm2 with rfl | hmem
        · exact ih (handleTouchMove m2 s) (hst.1.trans hx) (hst.2.trans hy)
            (Or.inl (handleTouchMove_qualifying m2 s sx sy hx hy hq2))
        · exact ih (handleTouchMove m s) (hst.1.trans hx) (hst.2.trans hy)
            (Or.inr ⟨m2, hmem, hq2⟩)

theorem handleTouchEnd_spec (t : TouchPoint) (s : TouchState) (sx sy : Int)
    (hx : s.touchStartX = some sx) (hy : s.touchStartY = some sy) :
    (handleTouchEnd t s).2 =
      if s.isSwiping
      then (if |t.clientX - sx| > |t.clientY - sy| ∧ |t.clientX - sx| > swipeCommitThreshold
            then (if t.clientX - sx < 0 then [NavAction.next] else [NavAction.prev])
            else [])
      else [] := by
  obtain ⟨tx, ty, sw⟩ := s
  dsimp only at hx hy
  subst hx
  subst hy
  unfold handleTouchEnd
  dsimp only
  cases sw <;> simp

/-- C4 counterexample: a gesture whose final displacement satisfies the
positive condition of the claim (here `Δx = 100 > 40 = commit-threshold`,
`|Δx| > |Δy| = 0`) but whose move list never engaged swipe mode — zero move
events — triggers no navigation at all, because `handleTouchEnd` returns
early while `isSwiping` is still false. -/
theorem swipe_commit_without_moves_no_navigation :
    |(100 : Int) - 0| > swipeCommitThreshold ∧
    |(100 : Int) - 0| > |(0 : Int) - 0| ∧
    (runTouchSequence ⟨0, 0⟩ [] ⟨100, 0⟩).2 = [] := by
  refine ⟨by decide, by decide, rfl⟩

/-- C4 (amended): the dead-zone (10px) is below the commit threshold (40px);
a gesture whose final displacement has `|Δx| ≤ dead-zone` or `|Δy| ≥ |Δx|`
never triggers navigation; and a gesture with `|Δx| > commit-threshold` and
`|Δx| > |Δy|` triggers exactly one navigation — next for `Δx < 0`, prev for
`Δx > 0` — provided at least one move event put the gesture into swipe mode
(its own displacement dominated vertically and exceeded the dead-zone; in
particular this holds whenever the release point itself occurred as a move,
as browsers deliver).  Without such a move the recogniser never commits,
as the counterexample shows. -/
theorem swipe_recognition (start release : TouchPoint) (moves : List TouchPoint) :
    swipeDeadZone < swipeCommitThreshold ∧
    ((|release.clientX - start.clientX| ≤ swipeDeadZone ∨
      |release.clientY - start.clientY| ≥ |release.clientX - start.clientX|) →
      (runTouchSequence start moves release).2 = []) ∧
    (|release.clientX - start.clientX| > swipeCommitThreshold →
     |release.clientX - start.clientX| > |release.clientY - start.clientY| →
     (∃ m ∈ moves, |m.clientX - start.clientX| > |m.clientY - start.clientY| ∧
        |m.clientX - start.clientX| > swipeDeadZone) →
      (runTouchSequence start moves release).2 =
        (if release.clientX - start.clientX < 0
         then [NavAction.next] else [NavAction.prev])) := by
  have hs0x : (handleTouchStart start initTouchState).touchStartX = some start.clientX := rfl
  have hs0y : (handleTouchStart start initTouchState).touchStartY = some start.clientY := rfl
  have hfold := foldMoves_start moves (handleTouchStart start initTouchState)
  have hx : (moves.foldl (fun st m => handleTouchMove m st)
      (handleTouchStart start initTouchState)).touchStartX = some start.clientX :=
    hfold.1.trans hs0x
  have hy : (moves.foldl (fun st m => handleTouchMove m st)
      (handleTouchStart start initTouchState)).touchStartY = some start.clientY :=
    hfold.2.trans hs0y
  have hrun : (runTouchSequence start moves release).2 =
      (handleTouchEnd release (moves.foldl (fun st m => handleTouchMove m st)
        (handleTouchStart start initTouchState))).2 := rfl
  have hspec := handleTouchEnd_spec release
    (moves.foldl (fun st m => handleTouchMove m st) (handleTouchStart start initTouchState))
    start.clientX start.clientY hx hy
  refine ⟨by decide, ?_, ?_⟩
  · intro hneg
    rw [hrun, hspec]
    by_cases hsw : (moves.foldl (fun st m => handleTouchMove m st)
        (handleTouchStart start initTouchState)).isSwiping
    · rw [if_pos hsw, if_neg]
      rintro ⟨h1, h2⟩
      rcases hneg with h | h
      · have : swipeDeadZone < swipeCommitThreshold := by decide
        omega
      · omega
    · rw [if_neg hsw]
  · intro h1 h2 hmove
    have hsw : (moves.foldl (fun st m => handleTouchMove m st)
        (handleTouchStart start initTouchState)).isSwiping = true :=
      foldMoves_swiping moves _ start.clientX start.clientY hs0x hs0y (Or.inr hmove)
    rw [hrun, hspec, if_pos hsw, if_pos ⟨h2, h1⟩]

/-- Witness for C4 (amended): a leftward swipe whose single move event is
the release point triggers exactly one next-navigation. -/
theorem swipe_recognition_witness :
    (runTouchSequence ⟨0, 0⟩ [⟨-60, 5⟩] ⟨-60, 5⟩).2 =
      (if (-60 : Int) - 0 < 0 then [NavAction.next] else [NavAction.prev]) :=
  (swipe_recognition ⟨0, 0⟩ ⟨-60, 5⟩ [⟨-60, 5⟩]).2.2 (by decide) (by decide)
    ⟨⟨-60, 5⟩, by decide, by decide⟩

/-! ## Lemmas about findIndex-based project navigation -/

theorem jsFindIndex_forall_false (p : α → Bool) (l : List α)
    (h : ∀ a ∈ l, p a = false) : jsFindIndex p l = -1 := by
  induction l with
  | nil => rfl
  | cons a rest ih =>
      have ha : p a = false := h a (List.mem_cons_self a rest)
      have hr : jsFindIndex p rest = -1 := ih (fun x hx => h x (List.mem_cons_of_mem a hx))
      simp [jsFindIndex, ha, hr]

theorem jsFindIndex_spec (p : α → Bool) (l : List α) (i : Nat)
    (h : jsFindIndex p l = (i : Int)) :
    i < l.length ∧ ∃ a, l[i]? = some a ∧ p a = true := by
  induction l generalizing i with
  | nil =>
      exfalso
      have hne : (-1 : Int) = (i : Int) := h
      omega
  | cons a rest ih =>
      by_cases ha : p a
      · have h0 : jsFindIndex p (a :: rest) = 0 := by simp [jsFindIndex, ha]
        rw [h0] at h
        have hi0 : i = 0 := by omega
        subst hi0
        refine ⟨by simp, a, ?_, ha⟩
        simp
      · have hafalse : p a = false := by simpa using ha
        by_cases hr : jsFindIndex p rest = -1
        · have hall : jsFindIndex p (a :: rest) = -1 := by simp [jsFindIndex, hafalse, hr]
          rw [hall] at h
          exfalso
          omega
        · have hne : (jsFindIndex p rest == -1) = false := by
            rw [beq_eq_false_iff_ne]
            exact hr
          have hstep : jsFindIndex p (a :: rest) = jsFindIndex p rest + 1 := by
            simp [jsFindIndex, hafalse, hne]
          rw [hstep] at h
          have hi0 : i ≠ 0 := by
            intro h0
            subst h0
            apply hr
            omega
          have hrest : jsFindIndex p rest = ((i - 1 : Nat) : Int) := by omega
          obtain ⟨hlt, b, hb, hpb⟩ := ih (i - 1) hrest
          refine ⟨by simp; omega, b, ?_, hpb⟩
          have hsucc : i = (i - 1) + 1 := by omega
          rw [hsucc, List.getElem?_cons_succ]
          exact hb

theorem handleNavigate_next_eq (s : AppState) (i : Nat)
    (hidx : selectedProjectIndex s = (i : Int))
    (hi : i < (filteredProjects s.activeCategory s.content).length) :
    handleNavigate NavDirection.next s =
      match (filteredProjects s.activeCategory s.content)[
          (i + 1) % (filteredProjects s.activeCategory s.content).length]? with
      | some p => some { s with selectedProjectId := some p.id }
      | none => none := by
  have hne : ¬ (selectedProjectIndex s = -1) := by
    rw [hidx]
    omega
  simp only [handleNavigate]
  rw [if_neg hne, hidx]
  by_cases hcase : i + 1 = (filteredProjects s.activeCategory s.content).length
  · have hge : (i : Int) + 1 ≥ ((filteredProjects s.activeCategory s.content).length : Int) := by
      omega
    rw [if_pos hge]
    have hneg : ¬ ((0 : Int) < 0) := by omega
    rw [if_neg hneg]
    have h2 : (i + 1) % (filteredProjects s.activeCategory s.content).length = 0 := by
      rw [hcase, Nat.mod_self]
    rw [h2]
    rfl
  · have hge : ¬ ((i : Int) + 1 ≥ ((filteredProjects s.activeCategory s.content).length : Int)) := by
      omega
    rw [if_neg hge]
    have hneg : ¬ ((i : Int) + 1 < 0) := by omega
    rw [if_neg hneg]
    have h1 : ((i : Int) + 1).toNat = i + 1 := by omega
    rw [h1]
    have h2 : (i + 1) % (filteredProjects s.activeCategory s.content).length = i + 1 :=
      Nat.mod_eq_of_lt (by omega)
    rw [h2]

theorem handleNavigate_prev_eq (s : AppState) (i : Nat)
    (hidx : selectedProjectIndex s = (i : Int))
    (hi : i < (filteredProjects s.activeCategory s.content).length) :
    handleNavigate NavDirection.prev s =
      match (filteredProjects s.activeCategory s.content)[
          (i + (filteredProjects s.activeCategory s.content).length - 1)
            % (filteredProjects s.activeCategory s.content).length]? with
      | some p => some { s with selectedProjectId := some p.id }
      | none => none := by
  have hne : ¬ (selectedProjectIndex s = -1) := by
    rw [hidx]
    omega
  simp only [handleNavigate]
  rw [if_neg hne, hidx]
  have hge : ¬ ((i : Int) - 1 ≥ ((filteredProjects s.activeCategory s.content).length : Int)) := by
    omega
  rw [if_neg hge]
  by_cases hcase : i = 0
  · subst hcase
    have hlt : ((0 : Int) : Int) - 1 < 0 := by omega
    rw [if_pos (by omega : ((0 : Nat) : Int) - 1 < 0)]
    have h1 : (((filteredProjects s.activeCategory s.content).length : Int) - 1).toNat
        = (filteredProjects s.activeCategory s.content).length - 1 := by omega
    rw [h1]
    have h2 : (0 + (filteredProjects s.activeCategory s.content).length - 1)
        % (filteredProjects s.activeCategory s.content).length
        = (filteredProjects s.activeCategory s.content).length - 1 := by
      rw [Nat.zero_add]
      exact Nat.mod_eq_of_lt (by omega)
    rw [h2]
  · have hlt : ¬ ((i : Int) - 1 < 0) := by omega
    rw [if_neg hlt]
    have h1 : ((i : Int) - 1).toNat = i - 1 := by omega
    rw [h1]
    have h2 : (i + (filteredProjects s.activeCategory s.content).length - 1)
        % (filteredProjects s.activeCategory s.content).length = i - 1 := by
      have hstep : i + (filteredProjects s.activeCategory s.content).length - 1
          = (i - 1) + (filteredProjects s.activeCategory s.content).length := by omega
      rw [hstep, Nat.add_mod_right]
      exact Nat.mod_eq_of_lt (by omega)
    rw [h2]

/-- C6: with a selected project found at position `i` of the filtered list,
next navigation re-selects the entry at `(i+1) mod N` of the filtered list
and prev navigation the entry at `(i+N-1) mod N`, wrapping around both ends;
both lookups succeed (no throw), and when the filtered list has exactly one
project both directions re-select the same project, leaving the state
unchanged. -/
theorem project_navigation_filtered_wrap (s : AppState) (sid : String) (i : Nat)
    (hsel : s.selectedProjectId = some sid)
    (hidx : jsFindIndex (matchesSelected s.selectedProjectId)
        (filteredProjects s.activeCategory s.content) = (i : Int)) :
    (∃ pn, (filteredProjects s.activeCategory s.content)[
        (i + 1) % (filteredProjects s.activeCategory s.content).length]? = some pn ∧
      handleNavigate NavDirection.next s
        = some { s with selectedProjectId := some pn.id }) ∧
    (∃ pp, (filteredProjects s.activeCategory s.content)[
        (i + (filteredProjects s.activeCategory s.content).length - 1)
          % (filteredProjects s.activeCategory s.content).length]? = some pp ∧
      handleNavigate NavDirection.prev s
        = some { s with selectedProjectId := some pp.id }) ∧
    ((filteredProjects s.activeCategory s.content).length = 1 →
      handleNavigate NavDirection.next s = some s ∧
      handleNavigate NavDirection.prev s = some s) := by
  obtain ⟨hi, pe, hpe, hppe⟩ := jsFindIndex_spec _ _ i hidx
  have hsi : selectedProjectIndex s = (i : Int) := hidx
  have hnext := handleNavigate_next_eq s i hsi hi
  have hprev := handleNavigate_prev_eq s i hsi hi
  have hlen1 : 1 ≤ (filteredProjects s.activeCategory s.content).length := by omega
  have htn : (i + 1) % (filteredProjects s.activeCategory s.content).length
      < (filteredProjects s.activeCategory s.content).length := Nat.mod_lt _ hlen1
  have htp : (i + (filteredProjects s.activeCategory s.content).length - 1)
      % (filteredProjects s.activeCategory s.content).length
      < (filteredProjects s.activeCategory s.content).length := Nat.mod_lt _ hlen1
  have hgn := List.getElem?_eq_getElem htn
  have hgp := List.getElem?_eq_getElem htp
  refine ⟨⟨_, hgn, by rw [hnext, hgn]⟩, ⟨_, hgp, by rw [hprev, hgp]⟩, ?_⟩
  intro hone
  have hi0 : i = 0 := by omega
  subst hi0
  have hpeid : pe.id = sid := by
    rw [hsel] at hppe
    simpa [matchesSelected] using hppe
  have hset : { s with selectedProjectId := some pe.id } = s := by
    rw [hpeid, ← hsel]
  rw [hone] at hnext hprev
  norm_num at hnext hprev
  rw [hpe] at hnext hprev
  simp only at hnext hprev
  exact ⟨hnext.trans (congrArg some hset), hprev.trans (congrArg some hset)⟩

/-- C10: when the selected identifier does not occur in the filtered project
list (for instance after the category filter changed while the overlay was
open), `findIndex` yields `-1` and `handleNavigate` returns the state
unchanged in either direction — no throw, no state change. -/
theorem navigate_unmatched_selection_noop (dir : NavDirection) (s : AppState) (sid : String)
    (hsel : s.selectedProjectId = some sid)
    (hnot : ∀ pr ∈ filteredProjects s.activeCategory s.content, pr.id ≠ sid) :
    handleNavigate dir s = some s := by
  have hfalse : ∀ pr ∈ filteredProjects s.activeCategory s.content,
      matchesSelected s.selectedProjectId pr = false := by
    intro pr hpr
    rw [hsel]
    simp only [matchesSelected, beq_eq_false_iff_ne, ne_eq]
    exact hnot pr hpr
  have hidxneg : selectedProjectIndex s = -1 :=
    jsFindIndex_forall_false _ _ hfalse
  unfold handleNavigate
  rw [if_pos hidxneg]

/-- Witness for C6 at the sample state: category "print" filters the
projects to two entries and the first is selected. -/
theorem project_navigation_filtered_wrap_witness :
    (∃ pn, (filteredProjects sampleState.activeCategory sampleState.content)[
        (0 + 1) % (filteredProjects sampleState.activeCategory
          sampleState.content).length]? = some pn ∧
      handleNavigate NavDirection.next sampleState
        = some { sampleState with selectedProjectId := some pn.id }) ∧
    (∃ pp, (filteredProjects sampleState.activeCategory sampleState.content)[
        (0 + (filteredProjects sampleState.activeCategory sampleState.content).length - 1)
          % (filteredProjects sampleState.activeCategory
            sampleState.content).length]? = some pp ∧
      handleNavigate NavDirection.prev sampleState
        = some { sampleState with selectedProjectId := some pp.id }) ∧
    ((filteredProjects sampleState.activeCategory sampleState.content).length = 1 →
      handleNavigate NavDirection.next sampleState = some sampleState ∧
      handleNavigate NavDirection.prev sampleState = some sampleState) :=
  project_navigation_filtered_wrap sampleState "p1" 0 rfl (by decide)

/-- Witness for C10: project p2 is filtered out by the "print" category, so
navigation with it selected is a no-op. -/
theorem navigate_unmatched_selection_noop_witness :
    handleNavigate NavDirection.next
      { content := sampleContent, activeCategory := "print", selectedProjectId := some "p2" }
      = some { content := sampleContent, activeCategory := "print",
               selectedProjectId := some "p2" } :=
  navigate_unmatched_selection_noop NavDirection.next
    { content := sampleContent, activeCategory := "print", selectedProjectId := some "p2" }
    "p2" rfl (by decide)
